import Mathlib

/-!
Shallow embedding of the audiorelay capture-process-broadcast pipeline.

The Go sources embedded here are `audio.go` (capture loop, buffer sizing,
silence detection, signal processing, encoding), `tcp.go` (immediate
broadcaster) and `http.go` (buffered broadcaster, WAV streaming).
Machine integers are modelled as `Int`/`Nat` with explicit wrapping where Go
converts between widths; `float64` arithmetic is modelled as exact rational
arithmetic.
-/

namespace AudioRelay

/-- Go's `int16(n)` conversion from a wider integer: two's-complement
truncation to 16 bits. -/
def toInt16 (n : ℤ) : ℤ := (n + 32768) % 65536 - 32768

/-- Go's conversion of a `float64` to an integer type truncates toward
zero: `tdiv` of the numerator by the (positive) denominator. -/
def goTrunc (q : ℚ) : ℤ := q.num.tdiv q.den

/-- Go's `int16(x)` for a `float64` value `x`: truncation toward zero, then
reduction to 16 bits (the out-of-range case is implementation-defined in Go;
we model it as two's-complement wrapping). -/
def goInt16 (q : ℚ) : ℤ := toInt16 (goTrunc q)

/-- `ProcessingConfig` from `config.go` (`SilenceThreshold` is an `int`,
`ClipThreshold` an `int16`, `VolumeMultiplier` a `float64`). -/
structure ProcessingConfig where
  silenceDetection : Bool
  silenceThreshold : ℤ
  volumeMultiplier : ℚ
  clipThreshold : ℤ
deriving Repr, DecidableEq

/-- `AudioConfig` from `config.go` (the fields the capture loop uses). -/
structure AudioConfig where
  sampleRate : ℚ
  channels : ℤ
  bufferSize : ℤ
deriving Repr, DecidableEq

/-- The `powerOfTwo` doubling loop inside `calculateOptimalBufferSize`
(`audio.go`): starting from `powerOfTwo`, double until it is at least
`targetSamples`.  The `0 < powerOfTwo` guard reflects that the source always
enters the loop with `powerOfTwo = 1`. -/
def nextPowTwoLoop (powerOfTwo targetSamples : ℕ) : ℕ :=
  if 0 < powerOfTwo ∧ powerOfTwo < targetSamples then
    nextPowTwoLoop (2 * powerOfTwo) targetSamples
  else
    powerOfTwo
termination_by targetSamples - powerOfTwo
decreasing_by omega

/-- `calculateOptimalBufferSize` from `audio.go`: a configured positive
buffer size is multiplied by the channel count; otherwise
`targetSamples = int(SampleRate * 0.02)` is rounded up to a power of two by
the doubling loop, clamped to [256, 2048], and multiplied by channels. -/
def calculateOptimalBufferSize (cfg : AudioConfig) : ℤ :=
  if cfg.bufferSize > 0 then
    cfg.bufferSize * cfg.channels
  else
    let targetSamples : ℤ := goTrunc (cfg.sampleRate * (2 / 100 : ℚ))
    let powerOfTwo : ℕ := nextPowTwoLoop 1 targetSamples.toNat
    let powerOfTwo : ℕ := if powerOfTwo < 256 then 256 else powerOfTwo
    let powerOfTwo : ℕ := if powerOfTwo > 2048 then 2048 else powerOfTwo
    (powerOfTwo : ℤ) * cfg.channels

/-- `isSilence` from `audio.go`: the configured threshold is converted to
`int16`; the frame is silent unless some sample exceeds `threshold` or is
below `-threshold`, where the negation is itself an `int16` operation and
therefore wraps: `-(-32768)` stays `-32768`. -/
def isSilence (silenceThreshold : ℤ) (buffer : List ℤ) : Bool :=
  let threshold := toInt16 silenceThreshold
  buffer.all fun s => decide (¬ (s > threshold ∨ s < toInt16 (-threshold)))

/-- The per-sample body of `processAudioData` (`audio.go`) before the final
`int16` conversion: gain, then soft clipping. -/
def softClipQ (clipThreshold : ℤ) (sample : ℚ) : ℚ :=
  if sample > (clipThreshold : ℚ) then
    (clipThreshold : ℚ) + (sample - (clipThreshold : ℚ)) * (3 / 10)
  else if sample < -(clipThreshold : ℚ) then
    -(clipThreshold : ℚ) + (sample + (clipThreshold : ℚ)) * (3 / 10)
  else
    sample

/-- `processAudioData` from `audio.go`: per sample, multiply by the volume
multiplier, soft-clip at the clip threshold, convert back to `int16`. -/
def processAudioData (volumeMultiplier : ℚ) (clipThreshold : ℤ)
    (buffer : List ℤ) : List ℤ :=
  buffer.map fun s => goInt16 (softClipQ clipThreshold ((s : ℚ) * volumeMultiplier))

/-- `int16ToBytes` from `audio.go`: each sample becomes two bytes,
least-significant first (`sample & 0xFF`, then the arithmetic right shift
`(sample >> 8) & 0xFF`). -/
def int16ToBytes (buffer : List ℤ) : List ℕ :=
  buffer.flatMap fun sample => [(sample % 256).toNat, ((sample.fdiv 256) % 256).toNat]

/-- State threaded through the `processAudio` loop of `audio.go`: the three
statistics counters of `AudioCapture` plus the loop-local `silenceFrames`
and `consecutiveErrors` counters. -/
structure CaptureState where
  frameCount : ℕ
  bytesSent : ℕ
  silenceCount : ℕ
  silenceFrames : ℕ
  consecutiveErrors : ℕ
deriving DecidableEq

/-- Outcome of one `ac.stream.Read()` call: failure, or a frame of `int16`
samples delivered into the capture buffer. -/
inductive ReadResult where
  | fail
  | ok (frame : List ℤ)
deriving DecidableEq

/-- Observable effects of one `processAudio` iteration: the argument of the
`dataCallback` invocation if one happened, the `time.Sleep` backoff in
milliseconds, and whether the loop broke out (halted). -/
structure StepOut where
  dispatched : Option (List ℕ)
  backoffMs : ℕ
  halted : Bool
deriving DecidableEq

/-- Tail of a `processAudio` iteration once a frame is (re)processed:
`processAudioData`, `int16ToBytes`, the `bytesSent` update, and the
`dataCallback` dispatch. -/
def processFrame (cfg : ProcessingConfig) (s : CaptureState) (frame : List ℤ) :
    CaptureState × StepOut :=
  let audioData := int16ToBytes (processAudioData cfg.volumeMultiplier cfg.clipThreshold frame)
  ({ s with bytesSent := s.bytesSent + audioData.length },
   { dispatched := some audioData, backoffMs := 0, halted := false })

/-- One iteration of the `processAudio` loop in `audio.go`: on a read error,
bump `consecutiveErrors`, break once it exceeds 10, otherwise sleep 10 ms and
retry; on success reset the error counter, bump `frameCount`, run silence
detection (with throttling after more than 30 consecutive silent frames),
then process/encode/dispatch the frame. -/
def captureStep (cfg : ProcessingConfig) (s : CaptureState) (r : ReadResult) :
    CaptureState × StepOut :=
  match r with
  | .fail =>
    let s := { s with consecutiveErrors := s.consecutiveErrors + 1 }
    if s.consecutiveErrors > 10 then
      (s, { dispatched := none, backoffMs := 0, halted := true })
    else
      (s, { dispatched := none, backoffMs := 10, halted := false })
  | .ok frame =>
    let s := { s with consecutiveErrors := 0, frameCount := s.frameCount + 1 }
    if cfg.silenceDetection && isSilence cfg.silenceThreshold frame then
      let s := { s with silenceFrames := s.silenceFrames + 1,
                        silenceCount := s.silenceCount + 1 }
      if s.silenceFrames > 30 then
        (s, { dispatched := none, backoffMs := 0, halted := false })
      else
        processFrame cfg s frame
    else
      let s := if cfg.silenceDetection then { s with silenceFrames := 0 } else s
      processFrame cfg s frame

/-- Iterates `captureStep` over a sequence of read outcomes, stopping (as the
`for ac.isRunning` loop does via `break`) as soon as a step halts. -/
def runCapture (cfg : ProcessingConfig) (s : CaptureState) :
    List ReadResult → CaptureState × List StepOut
  | [] => (s, [])
  | r :: rs =>
    let p := captureStep cfg s r
    if p.2.halted then
      (p.1, [p.2])
    else
      let q := runCapture cfg p.1 rs
      (q.1, p.2 :: q.2)

/-- One entry of the `ts.clients` map in `tcp.go`, together with the
behaviour of its `Write` call during the dispatch under consideration (an
error or an exceeded 2-second write deadline both surface as a `Write`
error). -/
structure TCPClient where
  id : ℕ
  writeFails : Bool
deriving DecidableEq

/-- Result of one `Broadcast` call in `tcp.go`: which clients received the
frame (id paired with the data written), the client set after
`cleanupClients` ran, and the connections that were closed. -/
structure BroadcastResult where
  delivered : List (ℕ × List ℕ)
  remaining : List TCPClient
  closed : List ℕ
deriving DecidableEq

/-- `cleanupClients` from `tcp.go`: each failed client is deleted from the
client map and its connection closed. -/
def cleanupClients (clients failedClients : List TCPClient) :
    List TCPClient × List ℕ :=
  (clients.filter (fun c => !(failedClients.contains c)),
   failedClients.map (fun c => c.id))

/-- `Broadcast` from `tcp.go`: a no-op on an empty client set; otherwise
write the data to every client, collect the clients whose write failed, and
clean those up. -/
def tcpBroadcast (clients : List TCPClient) (data : List ℕ) : BroadcastResult :=
  if clients.isEmpty then
    { delivered := [], remaining := clients, closed := [] }
  else
    let failedClients := clients.filter (fun c => c.writeFails)
    let cleanup := cleanupClients clients failedClients
    { delivered := (clients.filter (fun c => !c.writeFails)).map (fun c => (c.id, data)),
      remaining := cleanup.1,
      closed := cleanup.2 }

/-- The `bufferSize` field set in `NewHTTPServer` (`http.go`): the backlog
capacity, fixed at 50. -/
def httpBacklogCap : ℕ := 50

/-- `bufferAudioData` from `http.go`: append the frame to the backlog, then
keep only the last `bufferSize` (50) frames. -/
def bufferAudioData (audioBuffer : List (List ℕ)) (data : List ℕ) : List (List ℕ) :=
  let audioBuffer := audioBuffer ++ [data]
  if audioBuffer.length > httpBacklogCap then
    audioBuffer.drop (audioBuffer.length - httpBacklogCap)
  else
    audioBuffer

/-- One entry of the `hs.streamClients` map in `http.go`, with the behaviour
of its `Write` during the dispatch under consideration. -/
structure HTTPClient where
  id : ℕ
  writeFails : Bool
deriving DecidableEq

/-- `broadcastHTTPStream` from `http.go`: write (and flush) to every stream
client, collect failures, clean them up. -/
def broadcastHTTPStream (clients : List HTTPClient) (data : List ℕ) :
    List (ℕ × List ℕ) × List HTTPClient :=
  if clients.isEmpty then
    ([], clients)
  else
    let failedClients := clients.filter (fun c => c.writeFails)
    ((clients.filter (fun c => !c.writeFails)).map (fun c => (c.id, data)),
     clients.filter (fun c => !(failedClients.contains c)))

/-- `Broadcast` from `http.go`: fan out to the stream clients, then buffer
the frame for late joiners. -/
def httpBroadcast (clients : List HTTPClient) (audioBuffer : List (List ℕ))
    (data : List ℕ) : (List (ℕ × List ℕ) × List HTTPClient) × List (List ℕ) :=
  (broadcastHTTPStream clients data, bufferAudioData audioBuffer data)

/-- Events observable on one HTTP/WAV client connection: a chunk written to
it, a `Flush`, or the moment `addStreamClient` adds it to the live fan-out
set. -/
inductive CliEvent where
  | write (data : List ℕ)
  | flush
  | registered
deriving DecidableEq

/-- Bytes `"RIFF"`. -/
def chunkRIFF : List ℕ := [82, 73, 70, 70]

/-- Bytes `"WAVE"`. -/
def chunkWAVE : List ℕ := [87, 65, 86, 69]

/-- Bytes `"fmt "`. -/
def chunkFmt : List ℕ := [102, 109, 116, 32]

/-- Bytes `"data"`. -/
def chunkData : List ℕ := [100, 97, 116, 97]

/-- `writeWAVHeader` from `http.go`, as the byte sequence written to the
response (here `sampleRate` is `int(hs.config.Audio.SampleRate)` and
`channels` the configured channel count; single-byte fields are Go `byte(x)`
conversions, i.e. reduction mod 256). -/
def writeWAVHeader (sampleRate channels : ℕ) : List ℕ :=
  let bitsPerSample := 16
  let byteRate := sampleRate * channels * bitsPerSample / 8
  let blockAlign := channels * bitsPerSample / 8
  chunkRIFF ++ [255, 255, 255, 255] ++ chunkWAVE
    ++ chunkFmt ++ [16, 0, 0, 0] ++ [1, 0]
    ++ [channels % 256, 0]
    ++ [sampleRate % 256, sampleRate / 2 ^ 8 % 256,
        sampleRate / 2 ^ 16 % 256, sampleRate / 2 ^ 24 % 256]
    ++ [byteRate % 256, byteRate / 2 ^ 8 % 256,
        byteRate / 2 ^ 16 % 256, byteRate / 2 ^ 24 % 256]
    ++ [blockAlign % 256, 0] ++ [bitsPerSample % 256, 0]
    ++ chunkData ++ [255, 255, 255, 255]

/-- `sendBufferedAudio` from `http.go`: write every backlog entry in order,
then flush once after the loop. -/
def sendBufferedAudio (audioBuffer : List (List ℕ)) : List CliEvent :=
  audioBuffer.map CliEvent.write ++ [CliEvent.flush]

/-- Connect path of `handleWavStream` (`http.go`) as the event trace on the
new client: WAV header, flush, backlog replay via `sendBufferedAudio`, then
`addStreamClient` registers the client into the live fan-out set. -/
def handleWavStreamConnect (sampleRate channels : ℕ)
    (audioBuffer : List (List ℕ)) : List CliEvent :=
  [CliEvent.write (writeWAVHeader sampleRate channels), CliEvent.flush]
    ++ sendBufferedAudio audioBuffer ++ [CliEvent.registered]

/-- Event trace produced on one healthy registered client by successive
`broadcastHTTPStream` calls: each dispatched frame is written and then
flushed. -/
def liveStreamEvents (frames : List (List ℕ)) : List CliEvent :=
  frames.flatMap fun d => [CliEvent.write d, CliEvent.flush]

/-- End-to-end late-joiner scenario: `early` frames are dispatched (building
the backlog via `bufferAudioData`) before the client connects, the client
then goes through the `handleWavStream` connect path, and `late` frames are
dispatched to it live afterwards. -/
def lateJoinScenario (sampleRate channels : ℕ) (early late : List (List ℕ)) :
    List CliEvent :=
  handleWavStreamConnect sampleRate channels (early.foldl bufferAudioData [])
    ++ liveStreamEvents late

/-- Data chunks a client receives, in order, from its event trace. -/
def clientAudioWrites (events : List CliEvent) : List (List ℕ) :=
  events.filterMap fun e =>
    match e with
    | CliEvent.write d => some d
    | _ => none

/-- Little-endian encoding of a 16-bit quantity, as the spec reads the WAV
header fields. -/
def le16 (n : ℕ) : List ℕ := [n % 256, n / 2 ^ 8 % 256]

/-- Little-endian encoding of a 32-bit quantity, as the spec reads the WAV
header fields. -/
def le32 (n : ℕ) : List ℕ :=
  [n % 256, n / 2 ^ 8 % 256, n / 2 ^ 16 % 256, n / 2 ^ 24 % 256]

/-- Modelled from the spec formula for the Signal Processor: when
`|out| > clip_threshold`, the output is
`sign(out) * (clip_threshold + (|out| - clip_threshold) * 0.3)`. -/
def specSoftClip (clipThreshold : ℤ) (x : ℚ) : ℚ :=
  if |x| > (clipThreshold : ℚ) then
    (if 0 < x then 1 else -1) *
      ((clipThreshold : ℚ) + (|x| - (clipThreshold : ℚ)) * (3 / 10))
  else
    x

/-- Modelled from the claim wording for the backlog replay: the entire
backlog oldest to newest, "flushing after each entry". -/
def specReplayPerEntryFlush (audioBuffer : List (List ℕ)) : List CliEvent :=
  audioBuffer.flatMap fun d => [CliEvent.write d, CliEvent.flush]

/-- `n` is the least power of two that is at least `t`. -/
def IsLeastPow2Above (t n : ℕ) : Prop :=
  (∃ k, n = 2 ^ k) ∧ t ≤ n ∧ ∀ m : ℕ, (∃ k, m = 2 ^ k) → t ≤ m → n ≤ m

/-- `n` is the least power of two that is at least the rational `x` (the
reading of the claim's "smallest power of two ≥ R × 0.02"). -/
def IsLeastPow2AboveQ (x : ℚ) (n : ℕ) : Prop :=
  (∃ k, n = 2 ^ k) ∧ x ≤ (n : ℚ) ∧
    ∀ m : ℕ, (∃ k, m = 2 ^ k) → x ≤ (m : ℚ) → n ≤ m

/-! Helper lemmas. -/

theorem nextPowTwoLoop_eq (p t : ℕ) :
    nextPowTwoLoop p t =
      if 0 < p ∧ p < t then nextPowTwoLoop (2 * p) t else p := by
  rw [nextPowTwoLoop]

theorem nextPowTwoLoop_pow_spec (p t : ℕ) :
    ∀ a : ℕ, p = 2 ^ a →
      ∃ b : ℕ, a ≤ b ∧ nextPowTwoLoop p t = 2 ^ b ∧ t ≤ 2 ^ b ∧
        ∀ j : ℕ, a ≤ j → t ≤ 2 ^ j → 2 ^ b ≤ 2 ^ j := by
  induction p, t using nextPowTwoLoop.induct with
  | case1 p t h ih =>
    rintro a rfl
    obtain ⟨b, hab, hL, htb, hmin⟩ := ih (a + 1) (by rw [pow_succ]; ring)
    refine ⟨b, by omega, ?_, htb, ?_⟩
    · rw [nextPowTwoLoop_eq, if_pos h]; exact hL
    · intro j haj htj
      rcases Nat.eq_or_lt_of_le haj with rfl | hlt
      · omega
      · exact hmin j hlt htj
  | case2 p t h =>
    rintro a rfl
    have hpos : 0 < 2 ^ a := Nat.pos_pow_of_pos a (by norm_num)
    refine ⟨a, le_refl a, ?_, by omega, ?_⟩
    · rw [nextPowTwoLoop_eq, if_neg h]
    · intro j haj _
      exact Nat.pow_le_pow_right (by norm_num) haj

theorem nextPowTwoLoop_least (t : ℕ) :
    IsLeastPow2Above t (nextPowTwoLoop 1 t) := by
  obtain ⟨b, _, hL, htb, hmin⟩ := nextPowTwoLoop_pow_spec 1 t 0 (by norm_num)
  refine ⟨⟨b, hL⟩, by omega, ?_⟩
  rintro m ⟨k, rfl⟩ htm
  rw [hL]
  exact hmin k (Nat.zero_le k) htm

theorem goTrunc_eq_floor (q : ℚ) (h : 0 ≤ q) : goTrunc q = ⌊q⌋ := by
  rw [goTrunc, Int.tdiv_eq_ediv (Rat.num_nonneg.mpr h) (Int.ofNat_nonneg _),
    Rat.floor_def]

theorem toInt16_eq_self (n : ℤ) (h1 : -32768 ≤ n) (h2 : n ≤ 32767) :
    toInt16 n = n := by
  unfold toInt16
  omega

theorem foldl_bufferAudioData_eq (l acc : List (List ℕ))
    (h : acc.length + l.length ≤ 50) :
    l.foldl bufferAudioData acc = acc ++ l := by
  induction l generalizing acc with
  | nil => simp
  | cons d rest ih =>
    have hstep : bufferAudioData acc d = acc ++ [d] := by
      unfold bufferAudioData httpBacklogCap
      rw [if_neg]
      simp at h ⊢
      omega
    rw [List.foldl_cons, hstep, ih (acc ++ [d]) (by simp at h ⊢; omega)]
    simp

theorem isSilence_iff (t : ℤ) (buffer : List ℤ) :
    isSilence t buffer = true ↔
      ∀ s ∈ buffer, toInt16 (-toInt16 t) ≤ s ∧ s ≤ toInt16 t := by
  simp only [isSilence, List.all_eq_true, decide_eq_true_eq]
  constructor
  · intro h s hs
    have := h s hs
    omega
  · intro h s hs
    have := h s hs
    omega

theorem isSilence_false_of_neg (t : ℤ) (buffer : List ℤ)
    (hneg : toInt16 t < 0) (hgt : -32768 < toInt16 t) (hne : buffer ≠ []) :
    isSilence t buffer = false := by
  cases buffer with
  | nil => exact absurd rfl hne
  | cons s0 rest =>
    by_contra h
    rw [Bool.not_eq_false] at h
    have hmem := (isSilence_iff t (s0 :: rest)).mp h s0 (List.mem_cons_self s0 rest)
    have hwrap : toInt16 (-toInt16 t) = -toInt16 t :=
      toInt16_eq_self _ (by omega) (by omega)
    omega

/-! Claim theorems. -/

set_option maxRecDepth 4000 in
/-- C5: the backlog never exceeds the fixed capacity 50 after any dispatch;
dispatching 51 frames with no clients leaves exactly frames 2..51 in
insertion order; and the backlog update of `Broadcast` does not depend on the
registered client set. -/
theorem backlog_ring_invariant :
    (∀ (audioBuffer : List (List ℕ)) (data : List ℕ),
      (bufferAudioData audioBuffer data).length ≤ 50) ∧
    ((List.range' 1 51).map (fun n => [n])).foldl bufferAudioData []
      = (List.range' 2 50).map (fun n => [n]) ∧
    (∀ (clients : List HTTPClient) (audioBuffer : List (List ℕ))
        (data : List ℕ),
      (httpBroadcast clients audioBuffer data).2
        = bufferAudioData audioBuffer data) := by
  refine ⟨?_, by decide, fun _ _ _ => rfl⟩
  intro audioBuffer data
  show (if (audioBuffer ++ [data]).length > httpBacklogCap then
      List.drop ((audioBuffer ++ [data]).length - httpBacklogCap)
        (audioBuffer ++ [data])
    else audioBuffer ++ [data]).length ≤ 50
  unfold httpBacklogCap
  split
  · rename_i hgt
    simp only [List.length_drop]
    omega
  · rename_i hle
    simp only [List.length_append, List.length_cons, List.length_nil] at *
    omega

/-- C8: with a threshold `T` in the representable `int16` range, `isSilence`
returns `true` exactly when every sample's absolute value is at most `T`,
and a frame containing a sample of absolute value `T + 1` is classified
non-silent. -/
theorem isSilence_threshold_spec (t : ℤ) (buffer : List ℤ)
    (h0 : 0 ≤ t) (h1 : t ≤ 32766) :
    (isSilence t buffer = true ↔ ∀ s ∈ buffer, |s| ≤ t) ∧
    (∀ s ∈ buffer, |s| = t + 1 → isSilence t buffer = false) := by
  have ht : toInt16 t = t := toInt16_eq_self t (by omega) (by omega)
  have ht2 : toInt16 (-t) = -t := toInt16_eq_self _ (by omega) (by omega)
  have hiff : isSilence t buffer = true ↔ ∀ s ∈ buffer, |s| ≤ t := by
    rw [isSilence_iff, ht, ht2]
    constructor
    · intro h s hs
      have := h s hs
      rw [abs_le]
      omega
    · intro h s hs
      have := h s hs
      rw [abs_le] at this
      omega
  refine ⟨hiff, ?_⟩
  intro s hs habs
  cases hb : isSilence t buffer
  · rfl
  · have := hiff.mp hb s hs
    rw [habs] at this
    omega

/-- C10 (amended): `isSilence` compares against the threshold wrapped to
`int16`; when the wrapped threshold is negative but not -32768 (the one
negative value whose `int16` negation wraps back onto itself), every
nonempty frame (an all-zero frame included) is non-silent, and in that case
a successful capture cycle always dispatches and never counts silence, so
throttling never engages. -/
theorem isSilence_wrapped_threshold (t : ℤ) (buffer : List ℤ)
    (hneg : toInt16 t < 0) (hgt : -32768 < toInt16 t) (hne : buffer ≠ []) :
    isSilence t buffer = false ∧
    (∀ (u : ℤ) (buf : List ℤ), isSilence u buf = isSilence (toInt16 u) buf) ∧
    (∀ (cfg : ProcessingConfig) (s : CaptureState) (frame : List ℤ),
      toInt16 cfg.silenceThreshold < 0 → -32768 < toInt16 cfg.silenceThreshold →
      frame ≠ [] →
      ((captureStep cfg s (.ok frame)).2.dispatched).isSome = true ∧
      (captureStep cfg s (.ok frame)).1.silenceCount = s.silenceCount) := by
  refine ⟨isSilence_false_of_neg t buffer hneg hgt hne, ?_, ?_⟩
  · intro u buf
    have hid : toInt16 (toInt16 u) = toInt16 u := by
      unfold toInt16
      omega
    unfold isSilence
    rw [hid]
  · intro cfg s frame hneg' hgt' hne'
    have hsil := isSilence_false_of_neg cfg.silenceThreshold frame hneg' hgt' hne'
    cases hd : cfg.silenceDetection <;>
      simp [captureStep, hsil, hd, processFrame]

/-- Counterexample for C10 as stated: at configured threshold 32768 the
effective `int16` threshold is -32768, which is negative, yet a frame
consisting entirely of -32768 samples is classified silent (the negated
bound `-(-32768)` wraps back to -32768 in `int16`, so neither comparison
fires), and the capture loop then counts the frame as silence — so
throttling can engage. -/
theorem isSilence_wrapped_threshold_cex :
    toInt16 32768 = -32768 ∧
    toInt16 32768 < 0 ∧
    isSilence 32768 [-32768, -32768] = true ∧
    (captureStep ⟨true, 32768, 1, 28000⟩ ⟨0, 0, 0, 0, 0⟩
        (ReadResult.ok [-32768])).1.silenceCount = 1 := by
  refine ⟨by decide, by decide, by decide, ?_⟩
  have hsil : isSilence (32768 : ℤ) [-32768] = true := by decide
  simp [captureStep, hsil, processFrame]

/-- C7: in one `Broadcast` call over a client set containing a responsive
client A and a failing client B, the frame is delivered to A, A stays
registered, while B is removed from the set and its connection closed; a
dispatch with an empty client set is a no-op. -/
theorem tcpBroadcast_failure_isolation (A B : TCPClient) (data : List ℕ)
    (clients : List TCPClient) (hA : A ∈ clients) (hAok : A.writeFails = false)
    (hB : B ∈ clients) (hBfail : B.writeFails = true) :
    (A.id, data) ∈ (tcpBroadcast clients data).delivered ∧
    A ∈ (tcpBroadcast clients data).remaining ∧
    B ∉ (tcpBroadcast clients data).remaining ∧
    B.id ∈ (tcpBroadcast clients data).closed ∧
    (∀ d : List ℕ, tcpBroadcast [] d = ⟨[], [], []⟩) := by
  have hne : clients.isEmpty = false := by
    cases clients
    · cases hA
    · rfl
  have hBfailed : B ∈ clients.filter (fun c => c.writeFails) :=
    List.mem_filter.mpr ⟨hB, hBfail⟩
  unfold tcpBroadcast cleanupClients
  rw [hne]
  simp only [Bool.false_eq_true, if_false]
  refine ⟨?_, ?_, ?_, ?_, fun d => rfl⟩
  · exact List.mem_map.mpr ⟨A, List.mem_filter.mpr ⟨hA, by simp [hAok]⟩, rfl⟩
  · refine List.mem_filter.mpr ⟨hA, ?_⟩
    have hnot : A ∉ clients.filter (fun c => c.writeFails) := by
      intro hmem
      have hw := (List.mem_filter.mp hmem).2
      rw [hAok] at hw
      cases hw
    simp [List.contains, hnot]
  · intro hmem
    have hw := (List.mem_filter.mp hmem).2
    simp [List.contains] at hw
    rcases hw with h | h
    · exact h hB
    · rw [hBfail] at h
      cases h
  · exact List.mem_map.mpr ⟨B, hBfailed, rfl⟩

/-- Witness for C8 at threshold 1000: a frame within the threshold is
silent, and a frame holding a sample of absolute value 1001 is not. -/
theorem isSilence_threshold_spec_witness :
    isSilence 1000 [5, -3] = true ∧ isSilence 1000 [0, 1001, 0] = false := by
  constructor
  · exact (isSilence_threshold_spec 1000 [5, -3] (by decide) (by decide)).1.mpr
      (by decide)
  · exact (isSilence_threshold_spec 1000 [0, 1001, 0] (by decide)
      (by decide)).2 1001 (by decide) (by decide)

/-- Witness for C10 at configured threshold 40000: the wrapped `int16` value
is -25536, and the all-zero frame is classified non-silent. -/
theorem isSilence_wrapped_threshold_witness :
    isSilence 40000 [0, 0] = false ∧ toInt16 40000 = -25536 :=
  ⟨(isSilence_wrapped_threshold 40000 [0, 0] (by decide) (by decide)
      (by decide)).1,
   by decide⟩

/-- Witness for C7: clients A (id 0, responsive) and B (id 1, failing). -/
theorem tcpBroadcast_failure_isolation_witness :
    ((0 : ℕ), [7, 8]) ∈ (tcpBroadcast [⟨0, false⟩, ⟨1, true⟩] [7, 8]).delivered ∧
    (⟨0, false⟩ : TCPClient) ∈ (tcpBroadcast [⟨0, false⟩, ⟨1, true⟩] [7, 8]).remaining ∧
    (⟨1, true⟩ : TCPClient) ∉ (tcpBroadcast [⟨0, false⟩, ⟨1, true⟩] [7, 8]).remaining ∧
    (1 : ℕ) ∈ (tcpBroadcast [⟨0, false⟩, ⟨1, true⟩] [7, 8]).closed := by
  have h := tcpBroadcast_failure_isolation ⟨0, false⟩ ⟨1, true⟩ [7, 8]
    [⟨0, false⟩, ⟨1, true⟩] (by decide) rfl (by decide) rfl
  exact ⟨h.1, h.2.1, h.2.2.1, h.2.2.2.1⟩

/-- C1: with silence detection enabled, a silent capture cycle increments
the frame, silence and consecutive-silence counters; once the consecutive
count exceeds 30 the cycle produces no dispatch and no byte-count update
(in particular the 31st consecutive silent frame), while up to the 30th it
dispatches normally; a non-silent frame resets the consecutive count and is
processed, encoded and dispatched. -/
theorem captureStep_silence_throttle (cfg : ProcessingConfig)
    (s : CaptureState) (frame : List ℤ) (hdet : cfg.silenceDetection = true) :
    (isSilence cfg.silenceThreshold frame = true →
      ((captureStep cfg s (.ok frame)).1.frameCount = s.frameCount + 1 ∧
        (captureStep cfg s (.ok frame)).1.silenceCount = s.silenceCount + 1 ∧
        (captureStep cfg s (.ok frame)).1.silenceFrames = s.silenceFrames + 1) ∧
      (30 < s.silenceFrames + 1 →
        (captureStep cfg s (.ok frame)).2.dispatched = none ∧
        (captureStep cfg s (.ok frame)).1.bytesSent = s.bytesSent) ∧
      (s.silenceFrames + 1 ≤ 30 →
        (captureStep cfg s (.ok frame)).2.dispatched =
          some (int16ToBytes
            (processAudioData cfg.volumeMultiplier cfg.clipThreshold frame)))) ∧
    (isSilence cfg.silenceThreshold frame = false →
      (captureStep cfg s (.ok frame)).1.silenceFrames = 0 ∧
      (captureStep cfg s (.ok frame)).1.frameCount = s.frameCount + 1 ∧
      (captureStep cfg s (.ok frame)).1.silenceCount = s.silenceCount ∧
      (captureStep cfg s (.ok frame)).2.dispatched =
        some (int16ToBytes
          (processAudioData cfg.volumeMultiplier cfg.clipThreshold frame)) ∧
      (captureStep cfg s (.ok frame)).1.bytesSent = s.bytesSent +
        (int16ToBytes
          (processAudioData cfg.volumeMultiplier cfg.clipThreshold frame)).length) := by
  constructor
  · intro hsil
    by_cases h30 : 30 < s.silenceFrames + 1
    · simp [captureStep, hdet, hsil, processFrame, h30]
      omega
    · simp [captureStep, hdet, hsil, processFrame, h30]
  · intro hsil
    simp [captureStep, hdet, hsil, processFrame]

/-- Witness for C1: after 30 consecutive silent frames, the next (31st)
silent frame yields no dispatch while frame and silence counters still
increment. -/
theorem captureStep_silence_throttle_witness :
    (captureStep ⟨true, 1000, 1, 28000⟩ ⟨30, 60, 30, 30, 0⟩
        (ReadResult.ok [0])).2.dispatched = none ∧
    (captureStep ⟨true, 1000, 1, 28000⟩ ⟨30, 60, 30, 30, 0⟩
        (ReadResult.ok [0])).1.silenceCount = 31 ∧
    (captureStep ⟨true, 1000, 1, 28000⟩ ⟨30, 60, 30, 30, 0⟩
        (ReadResult.ok [0])).1.frameCount = 31 ∧
    (captureStep ⟨true, 1000, 1, 28000⟩ ⟨30, 60, 30, 30, 0⟩
        (ReadResult.ok [0])).1.bytesSent = 60 := by
  have h := (captureStep_silence_throttle ⟨true, 1000, 1, 28000⟩
    ⟨30, 60, 30, 30, 0⟩ [0] rfl).1 (by decide)
  obtain ⟨hc, h30, _⟩ := h
  have hskip := h30 (by decide)
  exact ⟨hskip.1, by rw [hc.2.1], by rw [hc.1], hskip.2⟩

/-- C4 (amended): every read failure increments the consecutive-error
counter and dispatches nothing; the loop halts exactly when the counter
exceeds 10 (that is, on the 11th consecutive failure), and otherwise backs
off for 10 ms; a successful read resets the counter to zero. -/
theorem captureStep_error_policy (cfg : ProcessingConfig) (s : CaptureState) :
    ((captureStep cfg s .fail).1.consecutiveErrors = s.consecutiveErrors + 1) ∧
    ((captureStep cfg s .fail).2.halted = true ↔ 10 < s.consecutiveErrors + 1) ∧
    ((captureStep cfg s .fail).2.dispatched = none) ∧
    (s.consecutiveErrors + 1 ≤ 10 →
      (captureStep cfg s .fail).2.backoffMs = 10) ∧
    (∀ frame : List ℤ,
      (captureStep cfg s (.ok frame)).1.consecutiveErrors = 0) := by
  refine ⟨?_, ?_, ?_, ?_, ?_⟩
  · by_cases h : 10 < s.consecutiveErrors + 1 <;> simp [captureStep, h]
  · by_cases h : 10 < s.consecutiveErrors + 1 <;> simp [captureStep, h]
  · by_cases h : 10 < s.consecutiveErrors + 1 <;> simp [captureStep, h]
  · intro h
    have hlt : ¬ 10 < s.consecutiveErrors + 1 := by omega
    simp [captureStep, hlt]
  · intro frame
    by_cases hsil : isSilence cfg.silenceThreshold frame = true <;>
      cases hd : cfg.silenceDetection <;>
      by_cases h30 : 30 < s.silenceFrames + 1 <;>
        simp [captureStep, hsil, hd, processFrame, h30]

/-- Counterexample for C4 as stated: starting from a fresh state, 10
consecutive read failures do not halt the loop — every one of the 10
iterations backs off 10 ms and retries, leaving the error counter at 10. -/
theorem captureStep_error_policy_cex :
    (runCapture ⟨true, 1000, 1, 28000⟩ ⟨0, 0, 0, 0, 0⟩
        (List.replicate 10 ReadResult.fail)).2.map StepOut.halted
      = List.replicate 10 false ∧
    (runCapture ⟨true, 1000, 1, 28000⟩ ⟨0, 0, 0, 0, 0⟩
        (List.replicate 10 ReadResult.fail)).1.consecutiveErrors = 10 ∧
    (runCapture ⟨true, 1000, 1, 28000⟩ ⟨0, 0, 0, 0, 0⟩
        (List.replicate 10 ReadResult.fail)).2.map StepOut.backoffMs
      = List.replicate 10 10 := by
  decide

/-- Witness for C4: at 10 accumulated consecutive errors the next failure
(the 11th) halts the loop; the 11-failure run from a fresh state halts
exactly at its last step. -/
theorem captureStep_error_policy_witness :
    (captureStep ⟨true, 1000, 1, 28000⟩ ⟨0, 0, 0, 0, 10⟩ .fail).2.halted = true ∧
    (captureStep ⟨true, 1000, 1, 28000⟩ ⟨0, 0, 0, 0, 10⟩
        .fail).1.consecutiveErrors = 11 ∧
    (runCapture ⟨true, 1000, 1, 28000⟩ ⟨0, 0, 0, 0, 0⟩
        (List.replicate 11 ReadResult.fail)).2.map StepOut.halted
      = List.replicate 10 false ++ [true] := by
  have h := captureStep_error_policy ⟨true, 1000, 1, 28000⟩ ⟨0, 0, 0, 0, 10⟩
  exact ⟨h.2.1.mpr (by decide), h.1, by decide⟩

theorem clientAudioWrites_append (a b : List CliEvent) :
    clientAudioWrites (a ++ b) = clientAudioWrites a ++ clientAudioWrites b := by
  unfold clientAudioWrites
  exact List.filterMap_append a b _

theorem clientAudioWrites_map_write (l : List (List ℕ)) :
    clientAudioWrites (l.map CliEvent.write) = l := by
  induction l with
  | nil => rfl
  | cons d rest ih =>
    simp only [List.map_cons, clientAudioWrites, List.filterMap_cons] at ih ⊢
    rw [ih]

theorem clientAudioWrites_live (frames : List (List ℕ)) :
    clientAudioWrites (liveStreamEvents frames) = frames := by
  induction frames with
  | nil => rfl
  | cons d rest ih =>
    simp only [liveStreamEvents, List.flatMap_cons, clientAudioWrites,
      List.filterMap_append, List.filterMap_cons] at ih ⊢
    simp [ih]

/-- C3 (amended): a newly connecting client goes through header, flush, full
backlog replay oldest-to-newest with a single flush after the entire backlog,
and only then is registered into the live fan-out set; hence a client
joining after `early` frames (at most 50) were dispatched receives exactly
those frames, in order, before any later live frame. -/
theorem lateJoin_replay_order (sampleRate channels : ℕ)
    (early late : List (List ℕ)) (h : early.length ≤ 50) :
    lateJoinScenario sampleRate channels early late =
      [CliEvent.write (writeWAVHeader sampleRate channels), CliEvent.flush]
        ++ early.map CliEvent.write ++ [CliEvent.flush]
        ++ [CliEvent.registered] ++ liveStreamEvents late ∧
    clientAudioWrites (lateJoinScenario sampleRate channels early late)
      = writeWAVHeader sampleRate channels :: (early ++ late) := by
  have hfold : early.foldl bufferAudioData [] = early := by
    simpa using foldl_bufferAudioData_eq early [] (by simpa using h)
  constructor
  · simp [lateJoinScenario, handleWavStreamConnect, sendBufferedAudio, hfold]
  · rw [lateJoinScenario, hfold, clientAudioWrites_append, clientAudioWrites_live,
      handleWavStreamConnect, sendBufferedAudio]
    rw [show [CliEvent.write (writeWAVHeader sampleRate channels), CliEvent.flush]
        ++ (early.map CliEvent.write ++ [CliEvent.flush]) ++ [CliEvent.registered]
      = [CliEvent.write (writeWAVHeader sampleRate channels)]
        ++ ([CliEvent.flush] ++ (early.map CliEvent.write
          ++ ([CliEvent.flush] ++ [CliEvent.registered]))) from by simp]
    rw [clientAudioWrites_append, clientAudioWrites_append,
      clientAudioWrites_append, clientAudioWrites_map_write]
    simp [clientAudioWrites]

/-- Counterexample for C3 as stated: the backlog replay does not flush after
each entry; with backlog [[1], [2]] the actual event trace flushes once
after both writes, not after every write. -/
theorem lateJoin_replay_order_cex :
    sendBufferedAudio [[1], [2]] ≠ specReplayPerEntryFlush [[1], [2]] ∧
    sendBufferedAudio [[1], [2]]
      = [CliEvent.write [1], CliEvent.write [2], CliEvent.flush] := by
  constructor
  · decide
  · rfl

/-- Witness for C3: a client joining after frames [1] and [2] were
dispatched, with frame [3] dispatched live afterwards, receives the header
and then exactly [1], [2], [3] in order. -/
theorem lateJoin_replay_order_witness :
    clientAudioWrites (lateJoinScenario 48000 2 [[1], [2]] [[3]])
      = writeWAVHeader 48000 2 :: ([[1], [2]] ++ [[3]]) :=
  (lateJoin_replay_order 48000 2 [[1], [2]] [[3]] (by decide)).2

/-- C9: on connect the HTTP/WAV transport emits a single 44-byte streaming
header: RIFF/WAVE markers, a 16-byte PCM format sub-chunk with format code
1, the channel count, the sample rate, byte rate = rate x channels x 2,
block align = channels x 2, bit depth 16, then a data sub-chunk header; the
RIFF and data size fields are the maximal 32-bit placeholder. -/
theorem writeWAVHeader_format (sampleRate channels : ℕ) (h1 : 0 < channels)
    (h2 : channels ≤ 127) (_h3 : sampleRate < 2 ^ 32) :
    writeWAVHeader sampleRate channels =
      chunkRIFF ++ le32 (2 ^ 32 - 1) ++ chunkWAVE
        ++ chunkFmt ++ le32 16 ++ le16 1 ++ le16 channels ++ le32 sampleRate
        ++ le32 (sampleRate * channels * 2) ++ le16 (channels * 2)
        ++ le16 16 ++ chunkData ++ le32 (2 ^ 32 - 1) ∧
    (writeWAVHeader sampleRate channels).length = 44 := by
  have hbr : sampleRate * channels * 16 / 8 = sampleRate * channels * 2 := by
    omega
  have hba : channels * 16 / 8 = channels * 2 := by
    omega
  constructor
  · simp only [writeWAVHeader, le16, le32, chunkRIFF, chunkWAVE, chunkFmt,
      chunkData, hbr, hba, List.cons_append, List.nil_append,
      List.cons.injEq, and_true, true_and]
    norm_num
    omega
  · simp [writeWAVHeader, chunkRIFF, chunkWAVE, chunkFmt, chunkData]

/-- Witness for C9 at the default configuration (48000 Hz, 2 channels). -/
theorem writeWAVHeader_format_witness :
    writeWAVHeader 48000 2 =
      chunkRIFF ++ le32 (2 ^ 32 - 1) ++ chunkWAVE
        ++ chunkFmt ++ le32 16 ++ le16 1 ++ le16 2 ++ le32 48000
        ++ le32 (48000 * 2 * 2) ++ le16 (2 * 2) ++ le16 16
        ++ chunkData ++ le32 (2 ^ 32 - 1) :=
  (writeWAVHeader_format 48000 2 (by decide) (by decide) (by norm_num)).1

theorem softClipQ_eq_spec (clipThreshold : ℤ) (hct : 0 ≤ clipThreshold)
    (x : ℚ) : softClipQ clipThreshold x = specSoftClip clipThreshold x := by
  have hct' : (0 : ℚ) ≤ (clipThreshold : ℚ) := by exact_mod_cast hct
  by_cases h1 : x > (clipThreshold : ℚ)
  · have hx : 0 < x := lt_of_le_of_lt hct' h1
    have habs : |x| = x := abs_of_pos hx
    simp only [softClipQ, specSoftClip, if_pos h1, habs, if_pos hx, one_mul]
  · by_cases h2 : x < -(clipThreshold : ℚ)
    · have hx : x < 0 := lt_of_lt_of_le h2 (by linarith)
      have habs : |x| = -x := abs_of_neg hx
      have hgt : |x| > (clipThreshold : ℚ) := by
        rw [habs]
        linarith
      have hgt2 : -x > (clipThreshold : ℚ) := by linarith
      simp only [softClipQ, specSoftClip, if_neg h1, if_pos h2, habs,
        if_pos hgt2, if_neg (not_lt.mpr (le_of_lt hx))]
      ring
    · have habs : ¬ |x| > (clipThreshold : ℚ) :=
        not_lt.mpr (abs_le.mpr ⟨by linarith, by linarith⟩)
      simp only [softClipQ, specSoftClip, if_neg h1, if_neg h2, if_neg habs]

/-- C6: the Signal Processor multiplies each sample by the volume
multiplier, applies the spec soft-clip formula
`sign(out) * (T + (|out| - T) * 0.3)` whenever `|out| > T`, and truncates to
the 16-bit sample width; a pre-clip value of `T + X` (X > 0) maps to
`T + 0.3 X`, symmetrically for negative excursions. -/
theorem processAudioData_softclip (volumeMultiplier : ℚ) (clipThreshold : ℤ)
    (hct : 0 ≤ clipThreshold) :
    (∀ buffer : List ℤ,
      processAudioData volumeMultiplier clipThreshold buffer =
        buffer.map fun s =>
          goInt16 (specSoftClip clipThreshold ((s : ℚ) * volumeMultiplier))) ∧
    (∀ X : ℚ, 0 < X →
      softClipQ clipThreshold ((clipThreshold : ℚ) + X)
        = (clipThreshold : ℚ) + X * (3 / 10) ∧
      softClipQ clipThreshold (-((clipThreshold : ℚ) + X))
        = -((clipThreshold : ℚ) + X * (3 / 10))) := by
  have hct' : (0 : ℚ) ≤ (clipThreshold : ℚ) := by exact_mod_cast hct
  constructor
  · intro buffer
    unfold processAudioData
    apply List.map_congr_left
    intro s _
    rw [softClipQ_eq_spec clipThreshold hct]
  · intro X hX
    constructor
    · rw [softClipQ, if_pos (by linarith)]
      ring
    · rw [softClipQ, if_neg (by linarith), if_pos (by linarith)]
      ring

/-- Witness for C6 at clip threshold 28000: a pre-clip value of 28000 + 10
soft-clips to 28000 + 3, symmetrically for -(28000 + 10); and the processed
frame equals the spec-formula frame at volume multiplier 1. -/
theorem processAudioData_softclip_witness :
    softClipQ 28000 ((28000 : ℤ) + (10 : ℚ)) = ((28000 : ℤ) : ℚ) + 10 * (3 / 10) ∧
    softClipQ 28000 (-(((28000 : ℤ) : ℚ) + 10)) = -(((28000 : ℤ) : ℚ) + 10 * (3 / 10)) ∧
    processAudioData 1 28000 [29000, -29000, 5] =
      [29000, -29000, 5].map fun s =>
        goInt16 (specSoftClip 28000 ((s : ℚ) * 1)) := by
  have h := processAudioData_softclip 1 28000 (by decide)
  have h2 := h.2 10 (by norm_num)
  exact ⟨h2.1, h2.2, h.1 [29000, -29000, 5]⟩

/-- C2 (amended): a positive configured buffer size B gives effective size
B x C; otherwise the effective size is P x C where P is the least power of
two at least `int(R * 0.02)` (the target sample count truncated to an
integer, as the code computes it), clamped into [256, 2048]. -/
theorem calculateOptimalBufferSize_policy (cfg : AudioConfig) :
    (0 < cfg.bufferSize →
      calculateOptimalBufferSize cfg = cfg.bufferSize * cfg.channels) ∧
    (cfg.bufferSize ≤ 0 → ∃ P : ℕ,
      IsLeastPow2Above (goTrunc (cfg.sampleRate * (2 / 100))).toNat P ∧
      calculateOptimalBufferSize cfg
        = ((min 2048 (max 256 P) : ℕ) : ℤ) * cfg.channels) := by
  constructor
  · intro h
    unfold calculateOptimalBufferSize
    rw [if_pos h]
  · intro h
    have hne : ¬ cfg.bufferSize > 0 := by omega
    refine ⟨nextPowTwoLoop 1 (goTrunc (cfg.sampleRate * (2 / 100))).toNat,
      nextPowTwoLoop_least _, ?_⟩
    simp only [calculateOptimalBufferSize, hne, if_false]
    set L := nextPowTwoLoop 1 (goTrunc (cfg.sampleRate * (2 / 100))).toNat
      with hLdef
    have hclamp : (if (if L < 256 then 256 else L) > 2048 then 2048
        else if L < 256 then 256 else L) = min 2048 (max 256 L) := by
      split_ifs <;> omega
    rw [hclamp]

/-- Counterexample for C2 as stated: at sample rate 12801 (and channel count
1, no configured buffer size) the code truncates 12801 x 0.02 = 256.02 to
256 before rounding, producing 256; the least power of two at least 256.02
is 512, and the claimed effective size 512 differs from the computed 256. -/
theorem calculateOptimalBufferSize_cex :
    calculateOptimalBufferSize ⟨12801, 1, 0⟩ = 256 ∧
    IsLeastPow2AboveQ ((12801 : ℚ) * (2 / 100)) 512 ∧
    ((min 2048 (max 256 512) : ℕ) : ℤ) * 1 ≠
      calculateOptimalBufferSize ⟨12801, 1, 0⟩ := by
  have hnext : nextPowTwoLoop 1 256 = 256 := by
    simp [nextPowTwoLoop_eq]
  have ht : goTrunc ((12801 : ℚ) * (2 / 100)) = 256 := by
    rw [goTrunc_eq_floor _ (by norm_num)]
    norm_num
  have ht' : goTrunc ((12801 : ℚ) / 50) = 256 := by
    rw [goTrunc_eq_floor _ (by norm_num)]
    norm_num
  have h1 : calculateOptimalBufferSize ⟨12801, 1, 0⟩ = 256 := by
    have htn : (256 : ℤ).toNat = 256 := rfl
    simp only [calculateOptimalBufferSize]
    norm_num [ht, ht', htn, hnext]
  refine ⟨h1, ⟨⟨9, by norm_num⟩, by norm_num, ?_⟩, by rw [h1]; norm_num⟩
  rintro m ⟨k, rfl⟩ hm
  by_contra hc
  push_neg at hc
  have hk : k ≤ 8 := by
    by_contra hk'
    push_neg at hk'
    have h512 : (512 : ℕ) ≤ 2 ^ k := by
      calc (512 : ℕ) = 2 ^ 9 := by norm_num
      _ ≤ 2 ^ k := Nat.pow_le_pow_right (by norm_num) hk'
    omega
  have hle : (2 : ℕ) ^ k ≤ 256 := by
    calc (2 : ℕ) ^ k ≤ 2 ^ 8 := Nat.pow_le_pow_right (by norm_num) hk
    _ = 256 := by norm_num
  have hq : ((2 ^ k : ℕ) : ℚ) ≤ 256 := by exact_mod_cast hle
  have hlt : (256 : ℚ) < 12801 * (2 / 100) := by norm_num
  linarith

/-- Witness for C2: a configured buffer size of 512 with 2 channels gives
1024; the default (48000 Hz, 2 channels, no configured size) gives 2048. -/
theorem calculateOptimalBufferSize_policy_witness :
    calculateOptimalBufferSize ⟨48000, 2, 512⟩ = 1024 ∧
    calculateOptimalBufferSize ⟨48000, 2, 0⟩ = 2048 := by
  constructor
  · have h := (calculateOptimalBufferSize_policy ⟨48000, 2, 512⟩).1 (by decide)
    rw [h]
    decide
  · obtain ⟨P, hP, hval⟩ :=
      (calculateOptimalBufferSize_policy ⟨48000, 2, 0⟩).2 (by decide)
    have ht : goTrunc ((48000 : ℚ) * (2 / 100)) = 960 := by
      rw [goTrunc_eq_floor _ (by norm_num)]
      norm_num
    have hP' : IsLeastPow2Above 960 P := by
      rw [show ((⟨48000, 2, 0⟩ : AudioConfig).sampleRate) = (48000 : ℚ) from rfl,
        ht] at hP
      simpa using hP
    obtain ⟨⟨k, rfl⟩, hge, hmin⟩ := hP'
    have h2 : 2 ^ k ≤ 1024 := hmin 1024 ⟨10, by norm_num⟩ (by norm_num)
    have hk10 : k = 10 := by
      have hk_le : k ≤ 10 := by
        by_contra hk'
        push_neg at hk'
        have h2048 : (2048 : ℕ) ≤ 2 ^ k := by
          calc (2048 : ℕ) = 2 ^ 11 := by norm_num
          _ ≤ 2 ^ k := Nat.pow_le_pow_right (by norm_num) hk'
        omega
      have hk_ge : 10 ≤ k := by
        by_contra hk'
        push_neg at hk'
        have h512 : (2 : ℕ) ^ k ≤ 512 := by
          calc (2 : ℕ) ^ k ≤ 2 ^ 9 := Nat.pow_le_pow_right (by norm_num) (by omega)
          _ = 512 := by norm_num
        omega
      omega
    subst hk10
    rw [hval]
    decide

end AudioRelay
